import Mathlib

/-!
Shallow embedding of `src/app.py`, a real-time train-position map viewer.

The program polls a GraphQL endpoint for vehicle positions, projects each
vehicle record into a flat train view (`get_train_info`), renders a marker
layer plus optional heading arrows (`update_map`, `add_heading_arrows`),
and on marker click renders a stop itinerary panel with next-stop
highlighting and scheduled-vs-realtime coloring.

Modelling conventions:
* JSON numbers are embedded as `ℚ` (coordinates, zoom, speed, heading) or
  `Int` (times in seconds, delays).  The floating-point trigonometry that
  computes a heading arrow's end point (lines 224-229 of app.py) is not
  modelled: the claims only concern whether an arrow is drawn, and an
  arrow is recorded by its start coordinates, heading and train index.
* A Python dict field is `Fld α` when the code distinguishes an absent key
  from a key that is present with value `null` (it uses `d.get(k, default)`
  with a non-`None` default, or direct indexing `d[k]`), and `Option α`
  when the code only ever reads it with plain `d.get(k)`, which collapses
  absent and `null` to `None`.
* Python exceptions (AttributeError on `None.get`, TypeError on indexing
  `None` or concatenating `None`, KeyError, IndexError, ValueError on
  `min([])`) are embedded with `Except PyErr`.
* Python truthiness is modelled per type: a number is truthy iff nonzero,
  a string iff nonempty, a list iff nonempty, `None`/absent is falsy.
-/

namespace RtMap

/-- One field of a JSON object as Python sees it: the key may be absent,
present with a `null` value, or present with a proper value. -/
inductive Fld (α : Type) where
  | absent
  | null
  | val (a : α)
deriving DecidableEq

/-- The `d.get(k)` view of a field: absent and `null` both give `None`. -/
def Fld.toOpt {α : Type} : Fld α → Option α
  | .absent => none
  | .null => none
  | .val a => some a

/-- Result of a `d.get(k, 'N/A')`-style access as stored in the derived
train view: the `'N/A'` placeholder, Python `None`, or a proper value. -/
inductive Disp (α : Type) where
  | na
  | pynull
  | val (a : α)
deriving DecidableEq

/-- `d.get(k, 'N/A')` applied to a field. -/
def Fld.toDisp {α : Type} : Fld α → Disp α
  | .absent => .na
  | .null => .pynull
  | .val a => .val a

/-- Python exception kinds raised by the code paths modelled here. -/
inductive PyErr where
  | attributeError
  | typeError
  | keyError
  | indexError
  | valueError
deriving DecidableEq

/-- Python truthiness of an optional number: truthy iff present and nonzero. -/
def truthyRat : Option ℚ → Bool
  | none => false
  | some x => decide (x ≠ 0)

/-- Python truthiness of an optional integer: truthy iff present and nonzero. -/
def truthyInt : Option Int → Bool
  | none => false
  | some n => decide (n ≠ 0)

/-- Python truthiness of an optional string: truthy iff present and nonempty. -/
def truthyStr : Option String → Bool
  | none => false
  | some s => decide (s ≠ "")

/-- Python `str()` of a possibly-`None` string (f-string interpolation of
`None` prints the text `None`). -/
def pyStrOpt : Option String → String
  | none => "None"
  | some s => s

/-- Python `f"\x7bn:02\x7d"` on an int: the sign, then enough zeros to reach a
total width of 2, then the digits. -/
def pyFormat02 (n : Int) : String :=
  let digits := toString n.natAbs
  let signLen : Nat := if n < 0 then 1 else 0
  (if n < 0 then "-" else "") ++ String.mk (List.replicate (2 - (digits.length + signLen)) '0') ++ digits

/-- Python `f"\x7bn:+\x7d"` on an int: an explicit sign always. -/
def pyFormatPlus (n : Int) : String :=
  (if 0 ≤ n then "+" else "") ++ toString n

/-- Core formatting of `seconds_to_hhmm` (app.py lines 468-471): hours are
`seconds // 3600` (Python floor division, not wrapped modulo 24) and
minutes `(seconds % 3600) // 60`, each rendered with `\x7b:02\x7d`. -/
def hhmmOfInt (n : Int) : String :=
  pyFormat02 (Int.fdiv n 3600) ++ ":" ++ pyFormat02 (Int.fdiv (Int.fmod n 3600) 60)

/-- The possible dynamic types of the argument of `seconds_to_hhmm`:
Python `None`, a string, an int, or any other non-int-convertible value. -/
inductive PySec where
  | pynone
  | pystr (s : String)
  | pyint (n : Int)
  | pyother
deriving DecidableEq

/-- Whitespace characters stripped by Python `int()`. -/
def pyWs (c : Char) : Bool :=
  c = ' ' || c = '\t' || c = '\n' || c = '\r'

/-- Value of a digit character list, most significant first. -/
def digitsVal (cs : List Char) : Nat :=
  cs.foldl (fun a c => a * 10 + (c.toNat - 48)) 0

/-- Python `int(s)` on a string: optional surrounding whitespace, an
optional sign, then at least one digit (digit-group underscores and exotic
whitespace are not modelled).  `none` means `int()` raises `ValueError`. -/
def parseIntPy (s : String) : Option Int :=
  let cs := ((s.data.dropWhile pyWs).reverse.dropWhile pyWs).reverse
  let signed : Bool × List Char :=
    match cs with
    | '-' :: rest => (true, rest)
    | '+' :: rest => (false, rest)
    | _ => (false, cs)
  if signed.2 ≠ [] ∧ signed.2.all Char.isDigit then
    some (if signed.1 then -(digitsVal signed.2 : Int) else (digitsVal signed.2 : Int))
  else
    none

/-- Python `int(x)` conversion on a `PySec` value; `none` means an
exception is raised (TypeError for `None` and non-convertible values,
ValueError for a non-numeric string). -/
def pyIntOf : PySec → Option Int
  | .pynone => none
  | .pystr s => parseIntPy s
  | .pyint n => some n
  | .pyother => none

/-- `seconds_to_hhmm` (app.py lines 464-473): empty string for `None` or
`''`, otherwise `int()` the input and format `HH:MM`; any conversion
exception yields the empty string. -/
def seconds_to_hhmm (v : PySec) : String :=
  if v = .pynone ∨ v = .pystr "" then ""
  else
    match pyIntOf v with
    | some n => hhmmOfInt n
    | none => ""

/-- Embed the optional-int seconds values of stop times into `PySec`
(the code passes either `None` or an int to `seconds_to_hhmm`). -/
def PySec.ofOptInt : Option Int → PySec
  | none => .pynone
  | some n => .pyint n

/-- `seconds_to_hhmm` applied to an optional seconds value. -/
def hhmmOfOpt (o : Option Int) : String :=
  seconds_to_hhmm (PySec.ofOptInt o)

/-! ## Data model (GraphQL response shape) -/

/-- A stop object.  GraphQL returns every requested key, so the fields are
modelled as present but possibly null. -/
structure Stop where
  name : Option String
  lat : Option ℚ
  lon : Option ℚ
  platformCode : Option String
deriving DecidableEq

/-- A stop time: the stop plus scheduled/realtime arrival and departure
(seconds since midnight) and the arrival delay in seconds.  All fields are
only ever read with plain `.get`, hence `Option`. -/
structure StopTime where
  stop : Option Stop
  scheduledArrival : Option Int
  realtimeArrival : Option Int
  arrivalDelay : Option Int
  scheduledDeparture : Option Int
  realtimeDeparture : Option Int
deriving DecidableEq

/-- A route object.  Only `longName` is ever read, and it is read by direct
indexing (`train['route']['longName']`), so absent vs null matters; the
other queried fields (id, gtfsId, shortName, textColor, color) are never
read and are omitted. -/
structure Route where
  longName : Fld String
deriving DecidableEq

/-- The empty dict `\x7b\x7d` used as the default for `trip.get('route', \x7b\x7d)`. -/
def Route.empty : Route := ⟨.absent⟩

/-- A trip object.  `route` and `stoptimes` are read with non-`None`
defaults (`\x7b\x7d` and `[]`), so absent vs null matters for them. -/
structure Trip where
  gtfsId : Option String
  tripShortName : Option String
  route : Fld Route
  stoptimes : Fld (List StopTime)
deriving DecidableEq

/-- The empty dict used as the default for `vehicle.get('trip', \x7b\x7d)`. -/
def Trip.empty : Trip := ⟨none, none, .absent, .absent⟩

/-- The prev-or-current stop timing record; only `arrivalDelay` is read,
via `.get('arrivalDelay', 'N/A')`, so absent vs null matters. -/
structure PrevStop where
  arrivalDelay : Fld Int
deriving DecidableEq

/-- The empty dict used as the default for `vehicle.get('prevOrCurrentStop', \x7b\x7d)`. -/
def PrevStop.empty : PrevStop := ⟨.absent⟩

/-- A raw vehicle-position record.  `trip`, `vehicleId`, `speed` and
`prevOrCurrentStop` are read in ways that distinguish absent from null;
the rest only with plain `.get`.  The queried `label` field is never read
and is omitted. -/
structure Vehicle where
  trip : Fld Trip
  vehicleId : Fld String
  lat : Option ℚ
  lon : Option ℚ
  speed : Fld ℚ
  heading : Option ℚ
  prevOrCurrentStop : Fld PrevStop
deriving DecidableEq

/-- The derived per-train view returned by `get_train_info`. -/
structure TrainInfo where
  name : Option String
  lat : Option ℚ
  lon : Option ℚ
  speed : Disp ℚ
  delay : Disp Int
  stoptimes : Option (List StopTime)
  gtfsId : Option String
  route : Option Route
  vehicleId : Option String
deriving DecidableEq

/-- `vehicle.get('vehicleId', 'Unknown')`: absent key yields the
placeholder, a present null yields Python `None`, a value yields itself. -/
def vehicleIdOrUnknown : Fld String → Option String
  | .absent => some "Unknown"
  | .null => none
  | .val s => some s

/-- `get_train_info` (app.py lines 151-171).  A `trip` or
`prevOrCurrentStop` key that is present with value `null` makes the code
call `.get` on `None`, raising AttributeError; an absent key falls back to
an empty dict. -/
def get_train_info (vehicle : Vehicle) : Except PyErr TrainInfo :=
  match vehicle.trip with
  | .null => .error .attributeError
  | tripFld =>
    let trip := match tripFld with | .val t => t | _ => Trip.empty
    let name : Option String :=
      if truthyStr trip.tripShortName then trip.tripShortName
      else vehicleIdOrUnknown vehicle.vehicleId
    match vehicle.prevOrCurrentStop with
    | .null => .error .attributeError
    | pcsFld =>
      let pcs := match pcsFld with | .val p => p | _ => PrevStop.empty
      .ok
        { name := name
          lat := vehicle.lat
          lon := vehicle.lon
          speed := vehicle.speed.toDisp
          delay := pcs.arrivalDelay.toDisp
          stoptimes :=
            match trip.stoptimes with
            | .absent => some []
            | .null => none
            | .val l => some l
          gtfsId := trip.gtfsId
          route :=
            match trip.route with
            | .absent => some Route.empty
            | .null => none
            | .val r => some r
          vehicleId := vehicle.vehicleId.toOpt }

/-- The coordinate filter of the train comprehension (app.py lines 173 and
310): `v.get('lat') and v.get('lon')` with Python truthiness. -/
def coordsTruthy (v : Vehicle) : Bool :=
  truthyRat v.lat && truthyRat v.lon

/-- The train list comprehension
`[get_train_info(v) for v in vehicle_positions if v.get('lat') and v.get('lon')]`:
elements are filtered and projected left to right, and the first exception
raised by `get_train_info` propagates. -/
def trainsOf : List Vehicle → Except PyErr (List TrainInfo)
  | [] => .ok []
  | v :: rest =>
    if coordsTruthy v then
      match get_train_info v with
      | .error e => .error e
      | .ok i =>
        match trainsOf rest with
        | .error e => .error e
        | .ok is => .ok (i :: is)
    else trainsOf rest

/-! ## Marker colors and derived identifiers -/

/-- Fallback of the derived identifier when `v.get('vehicleId')` is falsy:
`v.get('trip', \x7b\x7d).get('tripShortName') or 'unknown'`.  A `trip` key present
with value `null` makes `.get` be called on `None` (AttributeError). -/
def derivedIdFallback (v : Vehicle) : Except PyErr String :=
  match v.trip with
  | .null => .error .attributeError
  | .absent => .ok "unknown"
  | .val t =>
    .ok
      (match t.tripShortName with
       | some s => if s = "" then "unknown" else s
       | none => "unknown")

/-- The derived marker identifier
`str(v.get('vehicleId') or v.get('trip', \x7b\x7d).get('tripShortName') or 'unknown')`
(app.py lines 198 and 321).  Python `or` short-circuits, so a truthy
vehicleId is returned without touching `trip`. -/
def derivedIdE (v : Vehicle) : Except PyErr String :=
  match v.vehicleId.toOpt with
  | some s => if s = "" then derivedIdFallback v else .ok s
  | none => derivedIdFallback v

/-- The color chosen for one marker (app.py lines 199-202): the selection
color when a selection id exists, is truthy, and equals the derived id. -/
def markerColorFor (sel : Option String) (vid : String) : String :=
  if (match sel with
      | some s => decide (s ≠ "") && decide (vid = s)
      | none => false) then "#e67e22" else "blue"

/-- `get_marker_colors` (app.py lines 194-203): one color per record of the
raw vehicle list, derived left to right; the first exception raised while
deriving an identifier propagates. -/
def get_marker_colors : List Vehicle → Option String → Except PyErr (List String)
  | [], _ => .ok []
  | v :: rest, sel =>
    match derivedIdE v with
    | .error e => .error e
    | .ok vid =>
      match get_marker_colors rest sel with
      | .error e => .error e
      | .ok cs => .ok (markerColorFor sel vid :: cs)

/-- The customdata comprehension of the marker trace (app.py line 321):
derived identifiers of the coordinate-filtered vehicles, left to right. -/
def deriveAll : List Vehicle → Except PyErr (List String)
  | [] => .ok []
  | v :: rest =>
    match derivedIdE v with
    | .error e => .error e
    | .ok vid =>
      match deriveAll rest with
      | .error e => .error e
      | .ok vids => .ok (vid :: vids)

/-! ## Next-stop selection -/

/-- Index of the first element of a stop list satisfying a predicate;
this is the shape of the `for idx, s in enumerate(stops): ... break`
search loop of app.py lines 388-396. -/
def firstIdx (p : StopTime → Bool) : List StopTime → Option Nat
  | [] => none
  | s :: rest =>
    if p s then some 0
    else (firstIdx p rest).map (· + 1)

/-- The loop condition of the next-stop search (app.py lines 389-394):
`arr = int(arr) if arr else None` maps a falsy (absent, null or zero)
realtime value to `None`, and then `(arr and arr > now_sec) or (dep and
dep > now_sec)` requires a truthy value strictly above the reference time. -/
def codeQualifies (now : Int) (s : StopTime) : Bool :=
  (match s.realtimeArrival with
   | some a => decide (a ≠ 0) && decide (now < a)
   | none => false) ||
  (match s.realtimeDeparture with
   | some d => decide (d ≠ 0) && decide (now < d)
   | none => false)

/-- The specification's reading of the condition: the realtime arrival or
departure is present and strictly exceeds the reference time. -/
def specQualifies (now : Int) (s : StopTime) : Bool :=
  s.realtimeArrival.any (fun a => decide (now < a)) ||
  s.realtimeDeparture.any (fun d => decide (now < d))

/-- The `for idx, s in enumerate(stops): ... break` search (app.py lines
388-396): index of the first stop satisfying `codeQualifies`. -/
def nextStopIdxFrom (now : Int) (stops : List StopTime) : Option Nat :=
  firstIdx (codeQualifies now) stops

/-- The delay reference (app.py lines 397-401): the arrival delay of the
next stop, or of the last stop (`stops[-1]`) when no stop qualifies.  The
code only runs this on a nonempty stop list (guarded by `if stops:`). -/
def delayVal (stops : List StopTime) (now : Int) : Option Int :=
  match nextStopIdxFrom now stops with
  | some i => (stops.get? i).bind StopTime.arrivalDelay
  | none => stops.getLast?.bind StopTime.arrivalDelay

/-! ## Itinerary row rendering -/

/-- One rendered time label of an itinerary row: its text, whether it is
struck through, and its CSS color. -/
structure Span where
  text : String
  struck : Bool
  color : String
deriving DecidableEq

/-- The strikethrough condition of app.py lines 414/421:
`s.get(rt) and s.get(sched) and int(rt) != int(sched)`. -/
def condNe (rt sched : Option Int) : Bool :=
  truthyInt rt && truthyInt sched && decide (rt ≠ sched)

/-- The red-color condition of app.py lines 415/422:
`s.get(rt) and s.get(sched) and int(rt) > int(sched)`. -/
def condGt (rt sched : Option Int) : Bool :=
  truthyInt rt && truthyInt sched &&
    (match rt, sched with
     | some r, some a => decide (a < r)
     | _, _ => false)

/-- The pair of time spans rendered for given scheduled/realtime values
(shared shape of the arrival cell, app.py lines 413-417, and the departure
cell, lines 420-424): an optional struck-through scheduled label, then a
bold realtime (or fallback scheduled) label colored red when late. -/
def timeSpans (rt sched : Option Int) : List Span :=
  (if condNe rt sched then [⟨hhmmOfOpt sched, true, "#888"⟩] else []) ++
  [if truthyInt rt then
     ⟨hhmmOfOpt rt, false, if condGt rt sched then "#e74c3c" else "#2ecc40"⟩
   else ⟨hhmmOfOpt sched, false, "#2ecc40"⟩]

/-- The arrival cell of one itinerary row (app.py lines 413-417). -/
def arrivalSpans (s : StopTime) : List Span :=
  timeSpans s.realtimeArrival s.scheduledArrival

/-- The departure cell of one itinerary row (app.py lines 420-424). -/
def departureSpans (s : StopTime) : List Span :=
  timeSpans s.realtimeDeparture s.scheduledDeparture

/-! ## Viewport bounds and heading arrows -/

/-- Viewport bounds derived from the last pan/zoom event. -/
structure Bounds where
  latMin : ℚ
  latMax : ℚ
  lonMin : ℚ
  lonMax : ℚ
deriving DecidableEq

/-- The relevant parts of a Plotly relayout event: an optional
`mapbox.zoom` and the optional `mapbox._derived.coordinates` corner list;
each corner pair is `(lon, lat)`. -/
structure Relayout where
  zoom : Option ℚ
  coords : Option (List (ℚ × ℚ))
deriving DecidableEq

/-- `get_bounds` (app.py lines 263-281): zoom defaults to 7; bounds are
the min/max of the derived corner coordinates when present.  `min`/`max`
of an empty corner list would raise ValueError. -/
def getBoundsE : Option Relayout → Except PyErr (ℚ × Option Bounds)
  | none => .ok (7, none)
  | some r =>
    let zoom := r.zoom.getD 7
    match r.coords with
    | none => .ok (zoom, none)
    | some [] => .error .valueError
    | some (c :: cs) =>
      .ok (zoom, some
        { latMin := (cs.map Prod.snd).foldl min c.2
          latMax := (cs.map Prod.snd).foldl max c.2
          lonMin := (cs.map Prod.fst).foldl min c.1
          lonMax := (cs.map Prod.fst).foldl max c.1 })

/-- A heading arrow drawn for one train, recorded by the train's
coordinates, the heading used, and the train's index (`customdata`).  The
floating-point end-point offset (lines 224-229) is not modelled. -/
structure Arrow where
  lat1 : ℚ
  lon1 : ℚ
  heading : ℚ
  idx : Nat
deriving DecidableEq

/-- The viewport filter of `add_heading_arrows` (app.py lines 214-216):
with no bounds every train passes, otherwise the train's coordinates must
lie inside the rectangle. -/
def boundsOk : Option Bounds → ℚ → ℚ → Bool
  | none, _, _ => true
  | some b, la, lo =>
    decide (b.latMin ≤ la) && decide (la ≤ b.latMax) &&
    decide (b.lonMin ≤ lo) && decide (lo ≤ b.lonMax)

/-- The per-train body of the `add_heading_arrows` loop (app.py lines
211-234).  `t.get('heading')` is always `None` because `get_train_info`
does not copy the heading, so the code always falls back to scanning the
raw vehicle list for a record with equal coordinates and takes its
heading; no arrow is produced when that heading is `None`.  A train
without coordinates is skipped here; in the source that case would raise
TypeError on the bounds comparison, but `update_map` only ever passes
coordinate-filtered trains. -/
def arrowFor (vps : List Vehicle) (bounds : Option Bounds) (i : Nat) (t : TrainInfo) : Option Arrow :=
  match t.lat, t.lon with
  | some la, some lo =>
    if boundsOk bounds la lo then
      match (vps.find? (fun v => decide (v.lat = some la) && decide (v.lon = some lo))).bind Vehicle.heading with
      | some h => some ⟨la, lo, h, i⟩
      | none => none
    else none
  | _, _ => none

/-- The indexed loop of `add_heading_arrows` over the train list. -/
def headingArrowsFrom (vps : List Vehicle) (bounds : Option Bounds) : Nat → List TrainInfo → List Arrow
  | _, [] => []
  | i, t :: rest =>
    match arrowFor vps bounds i t with
    | some a => a :: headingArrowsFrom vps bounds (i + 1) rest
    | none => headingArrowsFrom vps bounds (i + 1) rest

/-- `add_heading_arrows` (app.py lines 205-256), reduced to the list of
arrows it draws: nothing below zoom 12, otherwise one arrow per visible
train whose heading can be resolved. -/
def headingArrows (trains : List TrainInfo) (vps : List Vehicle) (bounds : Option Bounds) (zoom : ℚ) : List Arrow :=
  if zoom < 12 then [] else headingArrowsFrom vps bounds 0 trains

/-! ## Info panel and figure -/

/-- One row of the scrollable itinerary list: a stop row (arrival cell,
departure cell, stop name, next-stop highlight flag) or the divider line
inserted after the last already-passed stop. -/
inductive Row where
  | stopRow (arr dep : List Span) (name : Option String) (highlighted : Bool)
  | divider
deriving DecidableEq

/-- The info panel built for a selected train (app.py lines 404-450).
`nextStopName = none` renders the "End of route" header; `some name` holds
the next stop's (possibly null) name. -/
structure Panel where
  headerTitle : String
  headerFromTo : String
  nextStopName : Option (Option String)
  delayText : String
  delayColor : String
  rows : List Row
deriving DecidableEq

/-- The `for i, s in enumerate(stops)` row loop (app.py lines 406-431):
stops without a stop object are skipped but still consume an index; a row
is highlighted when its index is the next-stop index; the divider follows
the row whose index is `next_stop_idx - 1`. -/
def rowsFor (nsi : Option Nat) : Nat → List StopTime → List Row
  | _, [] => []
  | i, s :: rest =>
    match s.stop with
    | none => rowsFor nsi (i + 1) rest
    | some st =>
      Row.stopRow (arrivalSpans s) (departureSpans s) st.name (decide (nsi = some i)) ::
        ((if (match nsi with
              | some k => decide (i + 1 = k)
              | none => false) then [Row.divider] else []) ++
          rowsFor nsi (i + 1) rest)

/-- The panel title `train['route']['longName'] + " - " + train['name']`
(app.py line 434): a null route raises TypeError, an absent `longName` key
KeyError, a null `longName` or null name TypeError on concatenation. -/
def headerTitleE (train : TrainInfo) : Except PyErr String :=
  match train.route with
  | none => .error .typeError
  | some r =>
    match r.longName with
    | .absent => .error .keyError
    | .null => .error .typeError
    | .val ln =>
      match train.name with
      | none => .error .typeError
      | some nm => .ok (ln ++ " - " ++ nm)

/-- `stops[next_stop_idx]['stop']['name']` (app.py line 439): indexing a
null stop raises TypeError. -/
def nextStopNameE (stops : List StopTime) (nsi : Option Nat) : Except PyErr (Option (Option String)) :=
  match nsi with
  | none => .ok none
  | some k =>
    match stops.get? k with
    | none => .error .indexError
    | some s =>
      match s.stop with
      | none => .error .typeError
      | some st => .ok (some st.name)

/-- Construction of the info panel for a selected train with a truthy stop
list (app.py lines 386-450): next-stop search, delay text
`f"\x7bint(delay_val)//60:+\x7d min"` and color, itinerary rows, and the header
parts (whose field accesses can raise; `stop_names[0]` raises IndexError
when every stop object is null). -/
def buildInfoE (train : TrainInfo) (stops : List StopTime) (now : Int) : Except PyErr Panel :=
  let nsi := nextStopIdxFrom now stops
  let dv := delayVal stops now
  let delayText :=
    match dv with
    | some d => pyFormatPlus (Int.fdiv d 60) ++ " min"
    | none => ""
  let delayColor :=
    if (match dv with
        | some d => decide (d ≠ 0) && decide (0 < d)
        | none => false) then "#e67e22" else "#2ecc40"
  let stopsPresent := stops.filterMap StopTime.stop
  match headerTitleE train with
  | .error e => .error e
  | .ok title =>
    match stopsPresent with
    | [] => .error .indexError
    | st0 :: rest =>
      let fromTo :=
        "(" ++ pyStrOpt st0.name ++ " → " ++ pyStrOpt ((rest.getLast?.getD st0).name) ++ ")"
      match nextStopNameE stops nsi with
      | .error e => .error e
      | .ok nsn =>
        .ok
          { headerTitle := title
            headerFromTo := fromTo
            nextStopName := nsn
            delayText := delayText
            delayColor := delayColor
            rows := rowsFor nsi 0 stops }

/-- A Plotly trace added to the figure, keeping the fields the claims talk
about.  The marker trace holds the raw coordinate values of the filtered
trains, the per-vehicle colors, hover texts and customdata identifiers. -/
inductive Trace where
  | markers (lats lons : List (Option ℚ)) (colors texts customdata : List String)
  | headingLine (a : Arrow)
  | headingHeads (arrows : List Arrow)
  | stopsTrace (lats lons : List (Option ℚ)) (names : List (Option String))
  | routeLine (coords : List (ℚ × ℚ))
deriving DecidableEq

/-- The map figure: its traces and the layout's center and zoom. -/
structure Figure where
  traces : List Trace
  center : ℚ × ℚ
  zoom : ℚ
deriving DecidableEq

/-- The `train-info` panel output: empty string or a rendered panel. -/
inductive Info where
  | empty
  | panel (p : Panel)
deriving DecidableEq

/-- The `vehicle-data-store` contents as classified by app.py lines
292/307-309: `bad` when not a dict with `data.vehiclePositions`; otherwise
the value of `vehiclePositions`, `none` standing for a non-list value
(replaced by `[]`). -/
inductive StoreData where
  | bad
  | good (vps : Option (List Vehicle))
deriving DecidableEq

/-- A `clickData` event; `customdata` is `str(...)` of the clicked
point's customdata (app.py lines 258-261). -/
structure Click where
  customdata : String
deriving DecidableEq

/-- The hardcoded map center (app.py lines 297 and 454). -/
def homeCenter : ℚ × ℚ := (47.1625, 19.5033)

/-- The final `fig.update_layout` (app.py lines 451-461): fixed center,
current zoom. -/
def finalFig (traces : List Trace) (zoom : ℚ) : Figure :=
  ⟨traces, homeCenter, zoom⟩

/-- Decimal rendering of a rational for hover text (stands in for Python's
float formatting; no claim depends on the exact digits). -/
def ratText (q : ℚ) : String :=
  if q.den = 1 then toString q.num else toString q.num ++ "/" ++ toString q.den

/-- Hover text of a `Disp` number. -/
def dispTextQ : Disp ℚ → String
  | .na => "N/A"
  | .pynull => "None"
  | .val q => ratText q

/-- Hover text of a `Disp` integer. -/
def dispTextI : Disp Int → String
  | .na => "N/A"
  | .pynull => "None"
  | .val n => toString n

/-- The marker hover text (app.py line 320). -/
def markerText (t : TrainInfo) : String :=
  pyStrOpt t.name ++ "<br>Speed: " ++ dispTextQ t.speed ++ " km/h<br>Delay: " ++ dispTextI t.delay ++ " sec"

/-- The traces added by `add_heading_arrows`: one line trace per arrow,
then a single arrow-heads trace when any arrow exists (app.py lines
235-256). -/
def arrowTraces (arrows : List Arrow) : List Trace :=
  arrows.map Trace.headingLine ++ (if arrows = [] then [] else [Trace.headingHeads arrows])

/-- Truthiness of the `stoptimes` value (`if stops:`): a nonempty list. -/
def truthyStops : Option (List StopTime) → Bool
  | none => false
  | some l => decide (l ≠ [])

/-- `update_map` (app.py lines 283-462).  External effects are passed as
inputs: `geo` is the decoded polyline of the per-trip geometry request
(`none` when the request fails or returns no points — the `try/except`
swallows every failure), and `now` is `get_seconds_since_midnight()`.
The unused `prev_fig` State argument of the source callback is omitted. -/
def update_map (clickData : Option Click) (relayoutData : Option Relayout)
    (storeData : StoreData) (geo : Option (List (ℚ × ℚ))) (now : Int) :
    Except PyErr (Figure × Info) :=
  match storeData with
  | .bad => .ok (⟨[], homeCenter, 7⟩, .empty)
  | .good vpsO =>
    let vps := vpsO.getD []
    match trainsOf vps with
    | .error e => .error e
    | .ok trains =>
      match getBoundsE relayoutData with
      | .error e => .error e
      | .ok (zoom, bounds) =>
        let sel := clickData.map Click.customdata
        match get_marker_colors vps sel with
        | .error e => .error e
        | .ok colors =>
          match deriveAll (vps.filter coordsTruthy) with
          | .error e => .error e
          | .ok customdata =>
            let markerTrace := Trace.markers (trains.map TrainInfo.lat) (trains.map TrainInfo.lon)
              colors (trains.map markerText) customdata
            let baseTraces := markerTrace :: arrowTraces (headingArrows trains vps bounds zoom)
            match clickData with
            | none => .ok (finalFig baseTraces zoom, .empty)
            | some click =>
              let vid := click.customdata
              let train? :=
                match trains.find? (fun t => decide (pyStrOpt t.vehicleId = vid)) with
                | some t => some t
                | none => trains.find? (fun t => decide (pyStrOpt t.name = vid))
              match train? with
              | none => .ok (finalFig baseTraces zoom, .empty)
              | some train =>
                if truthyStops train.stoptimes then
                  let stops := train.stoptimes.getD []
                  let stopsPresent := stops.filterMap StopTime.stop
                  let stopTrace := Trace.stopsTrace (stopsPresent.map Stop.lat)
                    (stopsPresent.map Stop.lon) (stopsPresent.map Stop.name)
                  let routeTraces :=
                    if truthyStr train.gtfsId then
                      match geo with
                      | some c => if c = [] then [] else [Trace.routeLine c]
                      | none => []
                    else []
                  match buildInfoE train stops now with
                  | .error e => .error e
                  | .ok panel =>
                    .ok (finalFig (baseTraces ++ stopTrace :: routeTraces) zoom, .panel panel)
                else .ok (finalFig baseTraces zoom, .empty)

/-! ## Concrete fixtures used by counterexamples and witnesses -/

/-- A vehicle with truthy coordinates, a vehicle id, a heading, and no
trip / prev-stop objects. -/
def vGood : Vehicle :=
  ⟨.absent, .val "V1", some 47, some 19, .absent, some 90, .absent⟩

/-- The train view `get_train_info` derives from `vGood`. -/
def iGood : TrainInfo :=
  ⟨some "V1", some 47, some 19, .na, .na, some [], none, some Route.empty, some "V1"⟩

/-- A vehicle with no coordinates (excluded from the plotted train set). -/
def vNoCoord : Vehicle :=
  ⟨.absent, .val "V2", none, none, .absent, none, .absent⟩

/-- A vehicle whose `trip` key is present with value `null`. -/
def vNullTrip : Vehicle :=
  ⟨.null, .val "V1", some 47, some 19, .absent, none, .absent⟩

/-- A vehicle record with every field absent. -/
def c6Vehicle : Vehicle :=
  ⟨.absent, .absent, none, none, .absent, none, .absent⟩

/-- A stop time whose scheduled arrival is midnight (0 seconds) and whose
realtime arrival is 60 seconds: both present, and they differ. -/
def c2BadStop : StopTime :=
  ⟨none, some 0, some 60, none, none, none⟩

/-- A stop time with nonzero scheduled (01:00) and realtime (01:02)
arrivals that differ. -/
def c2WitStop : StopTime :=
  ⟨none, some 3600, some 3720, none, none, none⟩

/-- The C2 claim property at one stop time, stated from the claim's words:
whenever the stop time has both a scheduled and a realtime arrival and
they differ, the rendered arrival cell shows the scheduled value struck
through (gray) and the realtime value red when strictly later than
scheduled, green otherwise. -/
def claimC2At (s : StopTime) : Prop :=
  ∀ a r : Int, s.scheduledArrival = some a → s.realtimeArrival = some r → a ≠ r →
    arrivalSpans s =
      [⟨hhmmOfInt a, true, "#888"⟩,
       ⟨hhmmOfInt r, false, if a < r then "#e74c3c" else "#2ecc40"⟩]

/-- A stop time whose realtime times (arrival 50, departure 120) are in
the past relative to reference time 100. -/
def c1StopA : StopTime :=
  ⟨none, none, some 50, some 120, none, some 90⟩

/-- A stop time whose realtime arrival (200) exceeds reference time 100. -/
def c1StopB : StopTime :=
  ⟨none, none, some 200, some 0, none, none⟩

/-- The trip object of a non-null `trip` field as the code sees it
(absent key falls back to the empty dict). -/
def tripObjOf : Fld Trip → Trip
  | .val t => t
  | _ => Trip.empty

/-- The prev-or-current-stop object of a non-null field as the code sees
it (absent key falls back to the empty dict). -/
def pcsObjOf : Fld PrevStop → PrevStop
  | .val p => p
  | _ => PrevStop.empty

/-! ## Helper lemmas -/

theorem firstIdx_some_iff (p : StopTime → Bool) (l : List StopTime) (i : Nat) :
    firstIdx p l = some i ↔
      ((l.get? i).any p = true ∧
        ∀ j : Nat, j < i → (l.get? j).all (fun s => ! p s) = true) := by
  induction l generalizing i with
  | nil =>
    constructor
    · intro h; cases h
    · rintro ⟨h1, -⟩; simp [Option.any] at h1
  | cons s rest ih =>
    by_cases hp : p s = true
    · rw [firstIdx, if_pos hp]
      cases i with
      | zero =>
        constructor
        · intro _
          exact ⟨by simpa [Option.any] using hp, fun j hj => absurd hj (Nat.not_lt_zero j)⟩
        · intro _; rfl
      | succ k =>
        constructor
        · intro h; cases h
        · rintro ⟨-, hall⟩
          have h0 := hall 0 (Nat.succ_pos k)
          simp [Option.all, hp] at h0
    · rw [firstIdx, if_neg hp]
      cases i with
      | zero =>
        constructor
        · intro h
          cases hr : firstIdx p rest with
          | none => rw [hr] at h; cases h
          | some k =>
            rw [hr] at h
            simp at h
        · rintro ⟨h1, -⟩
          simp [Option.any] at h1
          exact absurd h1 hp
      | succ k =>
        constructor
        · intro h
          cases hr : firstIdx p rest with
          | none => rw [hr] at h; cases h
          | some k' =>
            rw [hr] at h
            simp at h
            obtain ⟨h1, h2⟩ := (ih k).mp (h ▸ hr)
            refine ⟨h1, fun j hj => ?_⟩
            cases j with
            | zero => simp [Option.all, hp]
            | succ j' => exact h2 j' (by omega)
        · rintro ⟨h1, h2⟩
          have hr : firstIdx p rest = some k :=
            (ih k).mpr ⟨h1, fun j hj => h2 (j + 1) (by omega)⟩
          rw [hr]; rfl

theorem firstIdx_none_iff (p : StopTime → Bool) (l : List StopTime) :
    firstIdx p l = none ↔ ∀ s ∈ l, p s = false := by
  induction l with
  | nil => simp [firstIdx]
  | cons s rest ih =>
    by_cases hp : p s = true
    · rw [firstIdx, if_pos hp]
      constructor
      · intro h; cases h
      · intro h
        exact absurd (h s (List.mem_cons_self s rest)) (by simp [hp])
    · rw [firstIdx, if_neg hp]
      constructor
      · intro h
        have hr : firstIdx p rest = none := by
          cases hr : firstIdx p rest with
          | none => rfl
          | some k => rw [hr] at h; cases h
        intro t ht
        rcases List.mem_cons.mp ht with h1 | h1
        · subst h1; simpa using hp
        · exact (ih.mp hr) t h1
      · intro h
        have hr : firstIdx p rest = none :=
          ih.mpr (fun t ht => h t (List.mem_cons_of_mem s ht))
        rw [hr]; rfl

theorem firstIdx_congr (p q : StopTime → Bool) (l : List StopTime)
    (h : ∀ s ∈ l, p s = q s) : firstIdx p l = firstIdx q l := by
  induction l with
  | nil => rfl
  | cons s rest ih =>
    have hs := h s (List.mem_cons_self s rest)
    simp only [firstIdx, hs]
    rw [ih (fun t ht => h t (List.mem_cons_of_mem s ht))]

theorem codeQualifies_eq_spec (now : Int) (h0 : 0 ≤ now) (s : StopTime) :
    codeQualifies now s = specQualifies now s := by
  unfold codeQualifies specQualifies
  congr 1
  · cases ha : s.realtimeArrival with
    | none => simp [Option.any]
    | some a =>
      simp only [Option.any]
      by_cases haz : a = 0
      · subst haz
        simp
        omega
      · simp [haz]
  · cases hd : s.realtimeDeparture with
    | none => simp [Option.any]
    | some d =>
      simp only [Option.any]
      by_cases hdz : d = 0
      · subst hdz
        simp
        omega
      · simp [hdz]

theorem get_train_info_latlon (v : Vehicle) (i : TrainInfo)
    (h : get_train_info v = .ok i) : i.lat = v.lat ∧ i.lon = v.lon := by
  obtain ⟨trip, vid, lat, lon, speed, heading, pcs⟩ := v
  cases trip <;> cases pcs <;> simp only [get_train_info] at h <;> cases h <;>
    exact ⟨rfl, rfl⟩

theorem trainsOf_coords (vps : List Vehicle) (res : List TrainInfo)
    (h : trainsOf vps = .ok res) :
    ∀ i ∈ res, truthyRat i.lat = true ∧ truthyRat i.lon = true := by
  induction vps generalizing res with
  | nil =>
    simp [trainsOf] at h
    subst h
    intro i hi
    cases hi
  | cons v rest ih =>
    unfold trainsOf at h
    by_cases hc : coordsTruthy v = true
    · rw [if_pos hc] at h
      cases hgi : get_train_info v with
      | error e => rw [hgi] at h; cases h
      | ok i0 =>
        rw [hgi] at h
        cases hrest : trainsOf rest with
        | error e => rw [hrest] at h; cases h
        | ok is =>
          rw [hrest] at h
          injection h with h2
          subst h2
          intro i hi
          rcases List.mem_cons.mp hi with hi | hi
          · subst hi
            obtain ⟨hl, ho⟩ := get_train_info_latlon v i hgi
            unfold coordsTruthy at hc
            rw [hl, ho]
            exact ⟨(Bool.and_eq_true _ _ |>.mp hc).1, (Bool.and_eq_true _ _ |>.mp hc).2⟩
          · exact ih is hrest i hi
    · rw [if_neg hc] at h
      exact ih res h

theorem trainsOf_mem (vps : List Vehicle) (res : List TrainInfo) (v : Vehicle)
    (h : trainsOf vps = .ok res) (hv : v ∈ vps) (hc : coordsTruthy v = true) :
    ∃ i, get_train_info v = .ok i ∧ i ∈ res := by
  induction vps generalizing res with
  | nil => cases hv
  | cons w rest ih =>
    unfold trainsOf at h
    by_cases hw : coordsTruthy w = true
    · rw [if_pos hw] at h
      cases hgi : get_train_info w with
      | error e => rw [hgi] at h; cases h
      | ok i0 =>
        rw [hgi] at h
        cases hrest : trainsOf rest with
        | error e => rw [hrest] at h; cases h
        | ok is =>
          rw [hrest] at h
          injection h with h2
          subst h2
          rcases List.mem_cons.mp hv with hv | hv
          · subst hv
            exact ⟨i0, hgi, List.mem_cons_self i0 is⟩
          · obtain ⟨i, hi1, hi2⟩ := ih is hrest hv
            exact ⟨i, hi1, List.mem_cons_of_mem i0 hi2⟩
    · rw [if_neg hw] at h
      rcases List.mem_cons.mp hv with hv | hv
      · subst hv; exact absurd hc hw
      · exact ih res h hv

theorem trainsOf_length (vps : List Vehicle) (res : List TrainInfo)
    (h : trainsOf vps = .ok res) :
    res.length = (vps.filter coordsTruthy).length := by
  induction vps generalizing res with
  | nil => simp [trainsOf] at h; subst h; rfl
  | cons v rest ih =>
    unfold trainsOf at h
    by_cases hc : coordsTruthy v = true
    · rw [if_pos hc] at h
      cases hgi : get_train_info v with
      | error e => rw [hgi] at h; cases h
      | ok i0 =>
        rw [hgi] at h
        cases hrest : trainsOf rest with
        | error e => rw [hrest] at h; cases h
        | ok is =>
          rw [hrest] at h
          injection h with h2
          subst h2
          simp [List.filter_cons, hc, ih is hrest]
    · rw [if_neg hc] at h
      simp [List.filter_cons, hc, ih res h]

theorem derivedIdFallback_ne_empty (v : Vehicle) (d : String)
    (h : derivedIdFallback v = .ok d) : d ≠ "" := by
  obtain ⟨trip, vid, lat, lon, speed, heading, pcs⟩ := v
  cases trip with
  | null => simp [derivedIdFallback] at h
  | absent =>
    simp only [derivedIdFallback] at h
    injection h with h2
    subst h2
    decide
  | val t =>
    simp only [derivedIdFallback] at h
    cases hts : t.tripShortName with
    | none =>
      rw [hts] at h
      injection h with h2
      subst h2
      decide
    | some s =>
      simp only [hts] at h
      by_cases hs : s = ""
      · rw [if_pos hs] at h; injection h with h2; subst h2; decide
      · rw [if_neg hs] at h; injection h with h2; subst h2; exact hs

theorem derivedIdE_ne_empty (v : Vehicle) (d : String)
    (h : derivedIdE v = .ok d) : d ≠ "" := by
  obtain ⟨trip, vid, lat, lon, speed, heading, pcs⟩ := v
  cases vid with
  | absent =>
    exact derivedIdFallback_ne_empty _ d (by simpa [derivedIdE, Fld.toOpt] using h)
  | null =>
    exact derivedIdFallback_ne_empty _ d (by simpa [derivedIdE, Fld.toOpt] using h)
  | val s =>
    simp only [derivedIdE, Fld.toOpt] at h
    by_cases hs : s = ""
    · rw [if_pos hs] at h
      exact derivedIdFallback_ne_empty _ d h
    · rw [if_neg hs] at h
      injection h with h2
      subst h2
      exact hs

theorem markerColorFor_ifeq (sel : Option String) (d : String) (hd : d ≠ "") :
    markerColorFor sel d = if sel = some d then "#e67e22" else "blue" := by
  unfold markerColorFor
  cases sel with
  | none => simp
  | some s =>
    by_cases hds : d = s
    · subst hds
      simp [hd]
    · simp [hds, Ne.symm hds]

theorem gmc_forall2 (vps : List Vehicle) (sel : Option String) (colors : List String)
    (h : get_marker_colors vps sel = .ok colors) :
    List.Forall₂ (fun v c => ∃ d, derivedIdE v = .ok d ∧
      c = if sel = some d then "#e67e22" else "blue") vps colors := by
  induction vps generalizing colors with
  | nil => simp [get_marker_colors] at h; subst h; exact List.Forall₂.nil
  | cons v rest ih =>
    unfold get_marker_colors at h
    cases hd : derivedIdE v with
    | error e => rw [hd] at h; cases h
    | ok vid =>
      rw [hd] at h
      cases hrest : get_marker_colors rest sel with
      | error e => rw [hrest] at h; cases h
      | ok cs =>
        rw [hrest] at h
        injection h with h2
        subst h2
        exact List.Forall₂.cons
          ⟨vid, hd, (markerColorFor_ifeq sel vid (derivedIdE_ne_empty v vid hd))⟩
          (ih cs hrest)

theorem gmc_length (vps : List Vehicle) (sel : Option String) (colors : List String)
    (h : get_marker_colors vps sel = .ok colors) : colors.length = vps.length :=
  ((gmc_forall2 vps sel colors h).length_eq).symm

theorem gmc_all_ok (vps : List Vehicle) (sel : Option String) (colors : List String)
    (h : get_marker_colors vps sel = .ok colors) :
    ∀ v ∈ vps, ∃ d, derivedIdE v = .ok d := by
  induction vps generalizing colors with
  | nil => intro v hv; cases hv
  | cons v rest ih =>
    unfold get_marker_colors at h
    cases hd : derivedIdE v with
    | error e => rw [hd] at h; cases h
    | ok vid =>
      rw [hd] at h
      cases hrest : get_marker_colors rest sel with
      | error e => rw [hrest] at h; cases h
      | ok cs =>
        intro w hw
        rcases List.mem_cons.mp hw with h1 | h1
        · subst h1; exact ⟨vid, hd⟩
        · exact ih cs hrest w h1

theorem deriveAll_ok (l : List Vehicle) (h : ∀ v ∈ l, ∃ d, derivedIdE v = .ok d) :
    ∃ out, deriveAll l = .ok out := by
  induction l with
  | nil => exact ⟨[], rfl⟩
  | cons v rest ih =>
    obtain ⟨d, hd⟩ := h v (List.mem_cons_self v rest)
    obtain ⟨out, hout⟩ := ih (fun w hw => h w (List.mem_cons_of_mem v hw))
    exact ⟨d :: out, by unfold deriveAll; rw [hd, hout]⟩

theorem filter_length_eq_iff (p : Vehicle → Bool) (l : List Vehicle) :
    (l.filter p).length = l.length ↔ ∀ v ∈ l, p v = true := by
  induction l with
  | nil => simp
  | cons v rest ih =>
    by_cases hv : p v = true
    · simp [List.filter_cons, hv, ih]
    · simp only [List.filter_cons, hv, if_false, Bool.false_eq_true, List.length_cons]
      constructor
      · intro h
        have := List.length_filter_le p rest
        omega
      · intro h
        exact absurd (h v (List.mem_cons_self v rest)) hv

theorem arrowFor_inv (vps : List Vehicle) (bounds : Option Bounds) (i : Nat)
    (t : TrainInfo) (a : Arrow) (h : arrowFor vps bounds i t = some a) :
    t.lat = some a.lat1 ∧ t.lon = some a.lon1 ∧ boundsOk bounds a.lat1 a.lon1 = true := by
  unfold arrowFor at h
  cases hl : t.lat with
  | none => simp [hl] at h
  | some la =>
    cases ho : t.lon with
    | none => simp [hl, ho] at h
    | some lo =>
      simp only [hl, ho] at h
      by_cases hb : boundsOk bounds la lo = true
      · rw [if_pos hb] at h
        cases hh : ((vps.find? (fun v => decide (v.lat = some la) && decide (v.lon = some lo))).bind Vehicle.heading) with
        | none => rw [hh] at h; cases h
        | some hd =>
          rw [hh] at h
          injection h with h2
          subst h2
          exact ⟨rfl, rfl, hb⟩
      · rw [if_neg hb] at h
        cases h

theorem headingArrowsFrom_mem (vps : List Vehicle) (bounds : Option Bounds)
    (i : Nat) (trains : List TrainInfo) (a : Arrow)
    (h : a ∈ headingArrowsFrom vps bounds i trains) :
    boundsOk bounds a.lat1 a.lon1 = true ∧
      ∃ t ∈ trains, t.lat = some a.lat1 ∧ t.lon = some a.lon1 := by
  induction trains generalizing i with
  | nil => cases h
  | cons t rest ih =>
    unfold headingArrowsFrom at h
    cases haf : arrowFor vps bounds i t with
    | none =>
      rw [haf] at h
      obtain ⟨hb, t', ht', hc⟩ := ih (i + 1) h
      exact ⟨hb, t', List.mem_cons_of_mem t ht', hc⟩
    | some a' =>
      rw [haf] at h
      rcases List.mem_cons.mp h with hh | hh
      · subst hh
        obtain ⟨h1, h2, h3⟩ := arrowFor_inv vps bounds i t a haf
        exact ⟨h3, t, List.mem_cons_self t rest, h1, h2⟩
      · obtain ⟨hb, t', ht', hc⟩ := ih (i + 1) hh
        exact ⟨hb, t', List.mem_cons_of_mem t ht', hc⟩

/-! ## Claim theorems -/

/-- C1: for every nonempty stop-time sequence and every reference time
(seconds since midnight, hence nonnegative), the computed next stop is the
first entry in sequence order whose realtime arrival or realtime departure
strictly exceeds the reference time, and when no entry qualifies the delay
value shown in the info panel is the arrival delay of the last stop. -/
theorem c1_next_stop_selection (stops : List StopTime) (now : Int)
    (h0 : 0 ≤ now) (hne : stops ≠ []) :
    (∀ i : Nat, nextStopIdxFrom now stops = some i ↔
      ((stops.get? i).any (specQualifies now) = true ∧
        ∀ j : Nat, j < i → (stops.get? j).all (fun s => ! specQualifies now s) = true)) ∧
    ((∀ s ∈ stops, specQualifies now s = false) →
      delayVal stops now = (stops.getLast hne).arrivalDelay) := by
  have hcongr : firstIdx (codeQualifies now) stops = firstIdx (specQualifies now) stops :=
    firstIdx_congr _ _ stops (fun s _ => codeQualifies_eq_spec now h0 s)
  constructor
  · intro i
    rw [nextStopIdxFrom, hcongr]
    exact firstIdx_some_iff (specQualifies now) stops i
  · intro hall
    have hn : nextStopIdxFrom now stops = none := by
      rw [nextStopIdxFrom, hcongr]
      exact (firstIdx_none_iff _ _).mpr hall
    unfold delayVal
    rw [hn, List.getLast?_eq_getLast stops hne]
    rfl

/-- Witness for C1 at a concrete input: with reference time 100, the stop
with realtime arrival 200 at index 1 is selected as next stop. -/
theorem c1_next_stop_selection_witness :
    nextStopIdxFrom 100 [c1StopA, c1StopB] = some 1 :=
  ((c1_next_stop_selection [c1StopA, c1StopB] 100 (by decide) (by decide)).1 1).mpr
    ⟨by decide, by decide⟩

/-- C2 counterexample: at a stop time with scheduled arrival 0 (midnight)
and realtime arrival 60, both present and differing, the code renders no
struck-through scheduled label and colors the realtime value green even
though it is later, because Python truthiness treats the value 0 as
missing; so the claim as stated fails. -/
theorem c2_strike_color_counterexample : ¬ claimC2At c2BadStop := by
  intro h
  exact absurd (h 0 60 rfl rfl (by decide)) (by decide)

/-- C2 amended: for every stop time with nonzero scheduled and realtime
arrivals that differ, the rendered arrival cell is the scheduled value
struck through in gray followed by the realtime value, red when strictly
later than scheduled and green otherwise. -/
theorem c2_strike_color_amended (s : StopTime) (a r : Int)
    (ha : s.scheduledArrival = some a) (hr : s.realtimeArrival = some r)
    (ha0 : a ≠ 0) (hr0 : r ≠ 0) (hne : a ≠ r) :
    arrivalSpans s =
      [⟨hhmmOfInt a, true, "#888"⟩,
       ⟨hhmmOfInt r, false, if a < r then "#e74c3c" else "#2ecc40"⟩] := by
  have h1 : (some r : Option Int) ≠ some a := fun hh => hne (Option.some_inj.mp hh).symm
  simp only [arrivalSpans, timeSpans, condNe, condGt, truthyInt, ha, hr]
  simp [ha0, hr0, h1, hhmmOfOpt]
  exact ⟨rfl, rfl⟩

/-- Witness for the amended C2 at a concrete input. -/
theorem c2_strike_color_amended_witness :
    arrivalSpans c2WitStop =
      [⟨hhmmOfInt 3600, true, "#888"⟩,
       ⟨hhmmOfInt 3720, false, if (3600 : Int) < 3720 then "#e74c3c" else "#2ecc40"⟩] :=
  c2_strike_color_amended c2WitStop 3600 3720 rfl rfl (by decide) (by decide) (by decide)

/-- C3: a vehicle record of the fetched document contributes a train to
the plotted train set if and only if both its latitude and longitude are
present and non-falsy (Python truthiness: present and nonzero). -/
theorem c3_coordinate_filter (vps : List Vehicle) (res : List TrainInfo)
    (hok : trainsOf vps = .ok res) (v : Vehicle) (hv : v ∈ vps) :
    (∃ i, get_train_info v = .ok i ∧ i ∈ res) ↔ coordsTruthy v = true := by
  constructor
  · rintro ⟨i, hgi, hmem⟩
    obtain ⟨h1, h2⟩ := trainsOf_coords vps res hok i hmem
    obtain ⟨hl, ho⟩ := get_train_info_latlon v i hgi
    unfold coordsTruthy
    rw [← hl, ← ho]
    exact Bool.and_eq_true _ _ |>.mpr ⟨h1, h2⟩
  · intro hc
    exact trainsOf_mem vps res v hok hv hc

/-- Witness for C3 at a concrete input. -/
theorem c3_coordinate_filter_witness :
    (∃ i, get_train_info vGood = .ok i ∧ i ∈ [iGood]) ↔ coordsTruthy vGood = true :=
  c3_coordinate_filter [vGood] [iGood] rfl vGood (List.mem_singleton.mpr rfl)

/-- C4: when `get_marker_colors` returns a color list, each vehicle of the
raw list gets, in order, the selection color exactly when the selected
identifier equals its derived identifier (vehicleId, falling back to
tripShortName, falling back to `unknown`), and the default color
otherwise; with no selection every color is the default. -/
theorem c4_marker_colors (vps : List Vehicle) (sel : Option String) (colors : List String)
    (h : get_marker_colors vps sel = .ok colors) :
    List.Forall₂ (fun v c => ∃ d, derivedIdE v = .ok d ∧
      c = if sel = some d then "#e67e22" else "blue") vps colors ∧
    (sel = none → colors = vps.map (fun _ => "blue")) := by
  refine ⟨gmc_forall2 vps sel colors h, ?_⟩
  intro hsel
  subst hsel
  have hf := gmc_forall2 vps none colors h
  clear h
  induction hf with
  | nil => rfl
  | cons hrel hrest ih =>
    obtain ⟨d, -, hc⟩ := hrel
    simp only [List.map_cons]
    simp at hc
    rw [hc, ih]

/-- Witness for C4 at a concrete input: selecting id V1 colors the first
vehicle orange and the second blue. -/
theorem c4_marker_colors_witness :
    List.Forall₂ (fun v c => ∃ d, derivedIdE v = .ok d ∧
      c = if (some "V1" : Option String) = some d then "#e67e22" else "blue")
      [vGood, vNoCoord] ["#e67e22", "blue"] ∧
    ((some "V1" : Option String) = none →
      ["#e67e22", "blue"] = [vGood, vNoCoord].map (fun _ => "blue")) :=
  c4_marker_colors [vGood, vNoCoord] (some "V1") ["#e67e22", "blue"] rfl

/-- C5: a heading arrow is drawn for a train only when the zoom level is
at least the fixed threshold 12 and the train's coordinates pass the
viewport-bounds filter; no arrow exists below the threshold or for a train
outside the bounds. -/
theorem c5_heading_arrows (trains : List TrainInfo) (vps : List Vehicle)
    (bounds : Option Bounds) (zoom : ℚ) (a : Arrow)
    (h : a ∈ headingArrows trains vps bounds zoom) :
    12 ≤ zoom ∧ boundsOk bounds a.lat1 a.lon1 = true ∧
      ∃ t ∈ trains, t.lat = some a.lat1 ∧ t.lon = some a.lon1 := by
  unfold headingArrows at h
  by_cases hz : zoom < 12
  · rw [if_pos hz] at h
    cases h
  · rw [if_neg hz] at h
    obtain ⟨hb, ht⟩ := headingArrowsFrom_mem vps bounds 0 trains a h
    exact ⟨le_of_not_lt hz, hb, ht⟩

/-- Witness for C5 at a concrete input: at zoom 13 with no bounds, the
train at (47, 19) with heading 90 gets an arrow. -/
theorem c5_heading_arrows_witness :
    12 ≤ (13 : ℚ) ∧ boundsOk none (47 : ℚ) (19 : ℚ) = true ∧
      ∃ t ∈ [iGood], t.lat = some (47 : ℚ) ∧ t.lon = some (19 : ℚ) :=
  c5_heading_arrows [iGood] [vGood] none 13 ⟨47, 19, 90, 0⟩ (by decide)

/-- C6 counterexample: a vehicle record whose `trip` key is present with
value `null` makes `get_train_info` raise AttributeError (`None.get`), so
the claim that the projection never fails, including on null nested
fields, is false. -/
theorem c6_projection_counterexample :
    get_train_info vNullTrip = .error .attributeError := rfl

/-- C6 amended: for every vehicle record whose `trip` and
`prevOrCurrentStop` fields are not null (absent keys or proper objects),
`get_train_info` succeeds; an absent or empty trip short name resolves the
name to `vehicle.get('vehicleId', 'Unknown')` (the vehicleId value, or
`Unknown` when the key is absent), and an absent speed or arrival-delay
field resolves to the `N/A` placeholder. -/
theorem c6_projection_amended (v : Vehicle)
    (ht : v.trip ≠ Fld.null) (hp : v.prevOrCurrentStop ≠ Fld.null) :
    ∃ i, get_train_info v = .ok i ∧
      (truthyStr (tripObjOf v.trip).tripShortName = false →
        i.name = vehicleIdOrUnknown v.vehicleId) ∧
      (truthyStr (tripObjOf v.trip).tripShortName = true →
        i.name = (tripObjOf v.trip).tripShortName) ∧
      (v.speed = Fld.absent → i.speed = Disp.na) ∧
      ((pcsObjOf v.prevOrCurrentStop).arrivalDelay = Fld.absent → i.delay = Disp.na) := by
  obtain ⟨trip, vid, lat, lon, speed, heading, pcs⟩ := v
  cases trip with
  | null => exact absurd rfl ht
  | absent =>
    cases pcs with
    | null => exact absurd rfl hp
    | absent =>
      refine ⟨_, rfl, ?_, ?_, ?_, ?_⟩ <;> intro h0 <;>
        simp_all [get_train_info, tripObjOf, pcsObjOf, truthyStr, Fld.toDisp]
    | val p =>
      refine ⟨_, rfl, ?_, ?_, ?_, ?_⟩ <;> intro h0 <;>
        simp_all [get_train_info, tripObjOf, pcsObjOf, truthyStr, Fld.toDisp]
  | val t =>
    cases pcs with
    | null => exact absurd rfl hp
    | absent =>
      refine ⟨_, rfl, ?_, ?_, ?_, ?_⟩ <;> intro h0 <;>
        simp_all [get_train_info, tripObjOf, pcsObjOf, truthyStr, Fld.toDisp]
    | val p =>
      refine ⟨_, rfl, ?_, ?_, ?_, ?_⟩ <;> intro h0 <;>
        simp_all [get_train_info, tripObjOf, pcsObjOf, truthyStr, Fld.toDisp]

/-- Witness for the amended C6 at a concrete input: a record with every
field absent projects to placeholders. -/
theorem c6_projection_amended_witness :
    ∃ i, get_train_info c6Vehicle = .ok i ∧
      (truthyStr (tripObjOf c6Vehicle.trip).tripShortName = false →
        i.name = vehicleIdOrUnknown c6Vehicle.vehicleId) ∧
      (truthyStr (tripObjOf c6Vehicle.trip).tripShortName = true →
        i.name = (tripObjOf c6Vehicle.trip).tripShortName) ∧
      (c6Vehicle.speed = Fld.absent → i.speed = Disp.na) ∧
      ((pcsObjOf c6Vehicle.prevOrCurrentStop).arrivalDelay = Fld.absent →
        i.delay = Disp.na) :=
  c6_projection_amended c6Vehicle (by decide) (by decide)

/-- C7: a fetched document with an empty vehiclePositions list, no prior
pan/zoom event and no click yields, without raising, a figure whose only
trace is an empty marker layer, centered at (47.1625, 19.5033) with zoom
7, and an empty info panel. -/
theorem c7_empty_fetch_default_view (geo : Option (List (ℚ × ℚ))) (now : Int) :
    update_map none none (.good (some [])) geo now =
      .ok (⟨[Trace.markers [] [] [] [] []], (47.1625, 19.5033), 7⟩, .empty) := rfl

/-- C8: a click whose identifier matches no known train, neither by
vehicle id nor by display name, yields a valid figure and an empty info
panel without raising (given the earlier stages of the callback
succeeded). -/
theorem c8_unknown_click (vps : List Vehicle) (rel : Option Relayout) (click : Click)
    (geo : Option (List (ℚ × ℚ))) (now : Int) (trains : List TrainInfo)
    (zb : ℚ × Option Bounds) (colors : List String)
    (ht : trainsOf vps = .ok trains) (hb : getBoundsE rel = .ok zb)
    (hc : get_marker_colors vps (some click.customdata) = .ok colors)
    (hmiss : ∀ t ∈ trains, pyStrOpt t.vehicleId ≠ click.customdata ∧
      pyStrOpt t.name ≠ click.customdata) :
    ∃ fig : Figure, update_map (some click) rel (.good (some vps)) geo now =
      .ok (fig, Info.empty) := by
  obtain ⟨cd, hcd⟩ := deriveAll_ok (vps.filter coordsTruthy)
    (fun v hv => gmc_all_ok vps (some click.customdata) colors hc v (List.mem_of_mem_filter hv))
  obtain ⟨zoom, bounds⟩ := zb
  have hf1 : trains.find? (fun t => decide (pyStrOpt t.vehicleId = click.customdata)) = none := by
    rw [List.find?_eq_none]
    intro t htm
    simp only [decide_eq_true_eq]
    exact (hmiss t htm).1
  have hf2 : trains.find? (fun t => decide (pyStrOpt t.name = click.customdata)) = none := by
    rw [List.find?_eq_none]
    intro t htm
    simp only [decide_eq_true_eq]
    exact (hmiss t htm).2
  refine ⟨finalFig (Trace.markers (trains.map TrainInfo.lat) (trains.map TrainInfo.lon)
    colors (trains.map markerText) cd :: arrowTraces (headingArrows trains vps bounds zoom))
    zoom, ?_⟩
  simp only [update_map, Option.getD, Option.map_some', ht, hb, hc, hcd, hf1, hf2]

/-- Witness for C8 at a concrete input: clicking identifier `nosuch` with
one known train V1 yields an empty panel. -/
theorem c8_unknown_click_witness :
    ∃ fig : Figure, update_map (some ⟨"nosuch"⟩) none (.good (some [vGood])) none 0 =
      .ok (fig, Info.empty) :=
  c8_unknown_click [vGood] none ⟨"nosuch"⟩ none 0 [iGood] (7, none) ["blue"]
    rfl rfl rfl (by decide)

/-- C9: the color list has one entry per raw vehicle record, the plotted
train list has one entry per coordinate-filtered record, and the two have
equal length exactly when every vehicle has non-falsy coordinates. -/
theorem c9_color_position_lengths (vps : List Vehicle) (sel : Option String)
    (colors : List String) (trains : List TrainInfo)
    (hc : get_marker_colors vps sel = .ok colors) (ht : trainsOf vps = .ok trains) :
    colors.length = vps.length ∧
    trains.length = (vps.filter coordsTruthy).length ∧
    (colors.length = trains.length ↔ ∀ v ∈ vps, coordsTruthy v = true) := by
  have h1 := gmc_length vps sel colors hc
  have h2 := trainsOf_length vps trains ht
  refine ⟨h1, h2, ?_⟩
  rw [h1, h2]
  constructor
  · intro h
    exact (filter_length_eq_iff _ _).mp h.symm
  · intro h
    exact ((filter_length_eq_iff _ _).mpr h).symm

/-- Witness for C9 at a concrete input: two vehicles, one without
coordinates, give two colors but one marker position. -/
theorem c9_color_position_lengths_witness :
    (["blue", "blue"] : List String).length = [vGood, vNoCoord].length ∧
    [iGood].length = ([vGood, vNoCoord].filter coordsTruthy).length ∧
    ((["blue", "blue"] : List String).length = [iGood].length ↔
      ∀ v ∈ [vGood, vNoCoord], coordsTruthy v = true) :=
  c9_color_position_lengths [vGood, vNoCoord] none ["blue", "blue"] [iGood] rfl rfl

/-- C10: `seconds_to_hhmm` is total: it maps `None` and the empty string
to the empty string, any int-convertible input to hours (floor division by
3600, not wrapped modulo 24) and minutes in the two-digit-padded `HH:MM`
format, and any non-convertible input to the empty string instead of
raising; 90000 seconds renders as 25:00. -/
theorem c10_seconds_to_hhmm (v : PySec) :
    seconds_to_hhmm .pynone = "" ∧
    seconds_to_hhmm (.pystr "") = "" ∧
    (∀ n : Int, pyIntOf v = some n →
      seconds_to_hhmm v =
        pyFormat02 (Int.fdiv n 3600) ++ ":" ++ pyFormat02 (Int.fdiv (Int.fmod n 3600) 60)) ∧
    (pyIntOf v = none → seconds_to_hhmm v = "") ∧
    seconds_to_hhmm (.pyint 90000) = "25:00" := by
  refine ⟨rfl, rfl, ?_, ?_, by decide⟩
  · intro n hn
    cases v with
    | pynone => cases hn
    | pyother => cases hn
    | pyint m =>
      injection hn with hn2
      subst hn2
      rfl
    | pystr s =>
      have hs : s ≠ "" := by
        intro hs
        subst hs
        rw [show pyIntOf (PySec.pystr "") = none from rfl] at hn
        cases hn
      unfold seconds_to_hhmm
      rw [if_neg (by simp [hs]), hn]
      rfl
  · intro hn
    cases v with
    | pynone => rfl
    | pyother => rfl
    | pyint m => cases hn
    | pystr s =>
      unfold seconds_to_hhmm
      by_cases hs : s = ""
      · rw [if_pos (by simp [hs])]
      · rw [if_neg (by simp [hs]), hn]

/-- Witness for C10 at a concrete input: the string 4200 renders as
hours 1, minutes 10. -/
theorem c10_seconds_to_hhmm_witness :
    seconds_to_hhmm (.pystr "4200") =
      pyFormat02 (Int.fdiv 4200 3600) ++ ":" ++ pyFormat02 (Int.fdiv (Int.fmod 4200 3600) 60) :=
  (c10_seconds_to_hhmm (.pystr "4200")).2.2.1 4200 rfl

end RtMap
